import Mathlib

/-
Verification of the on-disk package-version repository manager
(`pkg/fleet/installer/repository`): a root directory holding version
directories plus two symbolic links, `stable` and `experiment`, and the
operations Create / GetState / SetExperiment / PromoteExperiment /
DeleteExperiment / Delete / Cleanup over them.

The filesystem is embedded shallowly: a repository root is a set of version
directories plus the contents of the two symlinks; the platform symlink
primitives (linkExists / linkRead / linkSet / linkDelete) and the external
permission setter, which are not part of the sampled source, are modelled
from the specification (resolved symlink reads, atomic replace, an oracle
for permission-setting success).
-/

namespace PkgRepo

/-- Names reserved for the two symbolic links. -/
def stableVersionLink : String := "stable"

/-- Name of the experiment symbolic link. -/
def experimentVersionLink : String := "experiment"

/-- Modelled from the spec: the possible contents of a symbolic link under the
repository root (the missing platform file writes links with `linkSet`).  A
link either names a sibling version directory (`pkg name`, i.e. the path
`root/name`), or names one of the two link paths themselves (`root/stable`,
`root/experiment`), which arises because `setExperimentToStable` points the
experiment link at the stable link's path. -/
inductive Dest where
  | pkg (name : String)
  | stableLink
  | experimentLink
deriving DecidableEq, Repr

/-- Base name of a destination path (Go: `filepath.Base`). -/
def destBase : Dest → String
  | .pkg n => n
  | .stableLink => stableVersionLink
  | .experimentLink => experimentVersionLink

/-- On-disk state of a repository root that exists: the version directories
directly under the root, and the contents of the `stable` and `experiment`
symlinks (`none` when the link entry is absent). -/
structure FS where
  dirs : List String
  stable : Option Dest
  experiment : Option Dest
deriving DecidableEq, Repr

/-- A disk state: `none` when the repository root directory does not exist. -/
abbrev Disk := Option FS

/-- Errors returned by the repository operations; each constructor stands for
one distinct wrapped error message of the source. -/
inductive RepoError where
  /-- `newLink`: the link's target cannot be resolved or no longer exists. -/
  | couldNotReadLink
  /-- `os.ReadDir` on the root failed (root directory absent). -/
  | couldNotReadRootDir
  /-- `movePackageFromSource`: "invalid package name". -/
  | invalidPackageName
  /-- `movePackageFromSource`: "target package already exists". -/
  | targetPackageAlreadyExists
  /-- `paths.SetRepositoryPermissions` failed. -/
  | permissionDenied
  /-- `os.Rename` of the source failed (source directory absent). -/
  | couldNotMoveSource
  /-- "stable link does not exist, invalid state". -/
  | stableLinkMissing
  /-- "experiment link does not exist, invalid state". -/
  | experimentLinkMissing
  /-- "no experiment to promote". -/
  | noExperimentToPromote
  /-- `Delete`: "could not delete root directory, not empty after cleanup". -/
  | rootNotEmptyAfterCleanup
deriving DecidableEq, Repr

/-- Fuel bound for symlink resolution (the OS bounds symlink chains). -/
def FUEL : Nat := 255

/-- Modelled from the spec: `linkRead` (the missing platform file resolves a
link with `filepath.EvalSymlinks`): fully resolve a link destination to an
existing version directory, failing (`none`) on a dangling target or a
symlink loop. -/
def resolveDest (fs : FS) : Nat → Dest → Option Dest
  | 0, _ => none
  | _ + 1, .pkg n => if n ∈ fs.dirs then some (.pkg n) else none
  | fuel + 1, .stableLink =>
    match fs.stable with
    | none => none
    | some c => resolveDest fs fuel c
  | fuel + 1, .experimentLink =>
    match fs.experiment with
    | none => none
    | some c => resolveDest fs fuel c

/-- The in-memory view of the two links of a `repositoryFiles` transaction:
the `packagePath` fields of the stable and experiment `link` values
(`none` when the link does not exist). -/
structure RepoFiles where
  stable : Option Dest
  experiment : Option Dest
deriving DecidableEq, Repr

/-- `newLink`: if the link entry is absent, an unloaded link; otherwise read
and resolve it, failing if the target cannot be resolved to an existing
directory. -/
def loadLink (fs : FS) (content : Option Dest) : Except RepoError (Option Dest) :=
  match content with
  | none => .ok none
  | some c =>
    match resolveDest fs FUEL c with
    | none => .error .couldNotReadLink
    | some r => .ok (some r)

/-- `readRepository`: load the stable link, then the experiment link. -/
def readRepository (fs : FS) : Except RepoError RepoFiles :=
  match loadLink fs fs.stable, loadLink fs fs.experiment with
  | .error e, _ => .error e
  | .ok _, .error e => .error e
  | .ok s, .ok e => .ok ⟨s, e⟩

/-- `readRepository` at the `Disk` level: with an absent root, `os.Lstat` on
both link paths fails with ENOENT, so both links load as unloaded. -/
def readRepositoryD : Disk → Except RepoError RepoFiles
  | none => .ok ⟨none, none⟩
  | some fs => readRepository fs

/-- `link.Target()`: base name of the in-memory package path, or the empty
string for an unloaded link. -/
def linkTarget : Option Dest → String
  | none => ""
  | some d => destBase d

/-- The environment of a call: the injected pre-remove hooks (keyed by
package name; a hook returns `(canDelete, hookErrored)`), the base name of
the root path, and oracles for the external permission setter and for
`os.RemoveAll` succeeding on an entry. -/
structure Env where
  preRemoveHooks : String → Option (String → Bool × Bool)
  rootBase : String
  permOk : Bool
  removeOk : String → Bool

/-- `setExperimentToStable`: `r.experiment.Set(r.stable.linkPath)` — point the
experiment link at the stable link's path, in memory and on disk. -/
def setExperimentToStable (r : RepoFiles) (fs : FS) : RepoFiles × FS :=
  (⟨r.stable, some Dest.stableLink⟩, { fs with experiment := some Dest.stableLink })

/-- The guard of cleanup's self-heal step:
`r.stable.Exists() && !r.experiment.Exists()`. -/
def healCond (r : RepoFiles) : Bool :=
  r.stable.isSome && r.experiment.isNone

/-- In-memory link state after cleanup's self-heal step. -/
def selfHealR (r : RepoFiles) : RepoFiles :=
  if healCond r then (setExperimentToStable r ⟨[], none, none⟩).1 else r

/-- Disk state after cleanup's self-heal step. -/
def selfHealFS (r : RepoFiles) (fs : FS) : FS :=
  if healCond r then (setExperimentToStable r fs).2 else fs

/-- One iteration of cleanup's sweep decides whether the entry `e` survives:
link entries, the current in-memory targets of the two links, entries whose
registered pre-remove hook returns `canDelete = false`, and entries whose
removal fails are kept; every other entry is removed.  The hook's error
component is logged only and never consulted. -/
def keepEntry (env : Env) (r : RepoFiles) (e : String) : Bool :=
  (e == stableVersionLink || e == experimentVersionLink)
  || (r.stable.isSome && linkTarget r.stable == e)
  || (r.experiment.isSome && linkTarget r.experiment == e)
  || (match env.preRemoveHooks env.rootBase with
      | some hook => !(hook e).1
      | none => false)
  || !env.removeOk e

/-- In-memory link state after `repositoryFiles.cleanup` (only the self-heal
step touches it). -/
def cleanupR (r : RepoFiles) : RepoFiles := selfHealR r

/-- Disk state after `repositoryFiles.cleanup`: self-heal, then sweep every
entry under the root through `keepEntry`. -/
def cleanupFS (env : Env) (r : RepoFiles) (fs : FS) : FS :=
  let fs₁ := selfHealFS r fs
  { fs₁ with dirs := fs₁.dirs.filter (keepEntry env (selfHealR r)) }

/-- `repositoryFiles.cleanup`, bundling the in-memory and on-disk effects. -/
def cleanup (env : Env) (r : RepoFiles) (fs : FS) : RepoFiles × FS :=
  (cleanupR r, cleanupFS env r fs)

/-- State of the external source directory handed to `Create` or
`SetExperiment`: whether it is still present at its source path, and whether
the permission policy has been applied to it. -/
structure Src where
  present : Bool
  permsApplied : Bool
deriving DecidableEq, Repr

/-- Result of `movePackageFromSource`: the returned target path or error,
plus the resulting repository and source states. -/
structure MoveRes where
  err : Option RepoError
  path : Option Dest
  fs : FS
  src : Src
deriving DecidableEq, Repr

/-- `movePackageFromSource`: validate the package name, fail if the target
directory already exists, apply the permission policy to the source, then
atomically rename the source into the root. -/
def movePackageFromSource (env : Env) (packageName : String) (fs : FS) (src : Src) : MoveRes :=
  if packageName = "" ∨ packageName = stableVersionLink ∨ packageName = experimentVersionLink then
    ⟨some .invalidPackageName, none, fs, src⟩
  else if packageName ∈ fs.dirs then
    ⟨some .targetPackageAlreadyExists, none, fs, src⟩
  else if !env.permOk then
    ⟨some .permissionDenied, none, fs, src⟩
  else if !src.present then
    ⟨some .couldNotMoveSource, none, fs, { src with permsApplied := true }⟩
  else
    ⟨none, some (.pkg packageName), { fs with dirs := packageName :: fs.dirs },
      ⟨false, true⟩⟩

/-- Externally observable repository state. -/
structure State where
  Stable : String
  Experiment : String
deriving DecidableEq, Repr

/-- Result of an operation that returns only an error: the error (if any) and
the disk afterwards. -/
structure OpRes where
  err : Option RepoError
  disk : Disk
deriving DecidableEq, Repr

/-- Result of an operation that also consumes a source directory. -/
structure OpSrcRes where
  err : Option RepoError
  disk : Disk
  src : Src
deriving DecidableEq, Repr

/-- `Repository.GetState`: read the repository fresh from disk and report both
targets, collapsing `experiment == stable` to an empty experiment. -/
def GetState (d : Disk) : Except RepoError State :=
  match readRepositoryD d with
  | .error e => .error e
  | .ok r =>
    let stable := linkTarget r.stable
    let experiment := linkTarget r.experiment
    .ok ⟨stable, if experiment = stable then "" else experiment⟩

/-- `Repository.Create`: make the root directory, read the repository, delete
both links, clean up, move the source in as the new stable, and point the
experiment link at the stable link. -/
def Create (env : Env) (d : Disk) (name : String) (src : Src) : OpSrcRes :=
  let fs₀ : FS := d.getD ⟨[], none, none⟩
  match readRepository fs₀ with
  | .error e => ⟨some e, some fs₀, src⟩
  | .ok _ =>
    let fs₁ : FS := { fs₀ with stable := none, experiment := none }
    let r₁ : RepoFiles := ⟨none, none⟩
    let fs₂ := cleanupFS env r₁ fs₁
    let m := movePackageFromSource env name fs₂ src
    match m.err, m.path with
    | some e, _ => ⟨some e, some m.fs, m.src⟩
    | none, none => ⟨some .couldNotMoveSource, some m.fs, m.src⟩
    | none, some p =>
      let fs₃ : FS := { m.fs with stable := some p }
      let r₃ : RepoFiles := ⟨some p, none⟩
      ⟨none, some (setExperimentToStable r₃ fs₃).2, m.src⟩

/-- `Repository.SetExperiment`: read, clean up, require both links, then move
the source in and point the experiment link at it. -/
def SetExperiment (env : Env) (d : Disk) (name : String) (src : Src) : OpSrcRes :=
  match d with
  | none => ⟨some .couldNotReadRootDir, none, src⟩
  | some fs =>
    match readRepository fs with
    | .error e => ⟨some e, some fs, src⟩
    | .ok r =>
      let r₁ := cleanupR r
      let fs₁ := cleanupFS env r fs
      if r₁.stable = none then ⟨some .stableLinkMissing, some fs₁, src⟩
      else if r₁.experiment = none then ⟨some .experimentLinkMissing, some fs₁, src⟩
      else
        let m := movePackageFromSource env name fs₁ src
        match m.err, m.path with
        | some e, _ => ⟨some e, some m.fs, m.src⟩
        | none, none => ⟨some .couldNotMoveSource, some m.fs, m.src⟩
        | none, some p => ⟨none, some { m.fs with experiment := some p }, m.src⟩

/-- `Repository.PromoteExperiment`: read, clean up, require both links and
distinct targets, point the stable link at the experiment's package path,
then clean up again. -/
def PromoteExperiment (env : Env) (d : Disk) : OpRes :=
  match d with
  | none => ⟨some .couldNotReadRootDir, none⟩
  | some fs =>
    match readRepository fs with
    | .error e => ⟨some e, some fs⟩
    | .ok r =>
      let r₁ := cleanupR r
      let fs₁ := cleanupFS env r fs
      if r₁.stable = none then ⟨some .stableLinkMissing, some fs₁⟩
      else if r₁.experiment = none then ⟨some .experimentLinkMissing, some fs₁⟩
      else if linkTarget r₁.stable = linkTarget r₁.experiment then
        ⟨some .noExperimentToPromote, some fs₁⟩
      else
        let r₂ : RepoFiles := ⟨r₁.experiment, r₁.experiment⟩
        let fs₂ : FS := { fs₁ with stable := r₁.experiment }
        ⟨none, some (cleanupFS env r₂ fs₂)⟩

/-- `Repository.DeleteExperiment`: read, clean up, require both links, point
the experiment link back at the stable link, then clean up again. -/
def DeleteExperiment (env : Env) (d : Disk) : OpRes :=
  match d with
  | none => ⟨some .couldNotReadRootDir, none⟩
  | some fs =>
    match readRepository fs with
    | .error e => ⟨some e, some fs⟩
    | .ok r =>
      let r₁ := cleanupR r
      let fs₁ := cleanupFS env r fs
      if r₁.stable = none then ⟨some .stableLinkMissing, some fs₁⟩
      else if r₁.experiment = none then ⟨some .experimentLinkMissing, some fs₁⟩
      else
        let h := setExperimentToStable r₁ fs₁
        ⟨none, some (cleanupFS env h.1 h.2)⟩

/-- `Repository.Cleanup`: read the repository fresh, then run the garbage
sweep; with an absent root the sweep's `os.ReadDir` fails. -/
def Cleanup (env : Env) (d : Disk) : OpRes :=
  match d with
  | none => ⟨some .couldNotReadRootDir, none⟩
  | some fs =>
    match readRepository fs with
    | .error e => ⟨some e, some fs⟩
    | .ok r => ⟨none, some (cleanupFS env r fs)⟩

/-- `Repository.Delete`: read, delete both links, run a full fresh cleanup,
fail if entries remain under the root, otherwise remove the root. -/
def Delete (env : Env) (d : Disk) : OpRes :=
  match d with
  | none => ⟨some .couldNotReadRootDir, none⟩
  | some fs =>
    match readRepository fs with
    | .error e => ⟨some e, some fs⟩
    | .ok _ =>
      let fs₁ : FS := { fs with stable := none, experiment := none }
      let fs₂ := cleanupFS env ⟨none, none⟩ fs₁
      if fs₂.dirs.isEmpty then ⟨none, none⟩
      else ⟨some .rootNotEmptyAfterCleanup, some fs₂⟩

/-- Well-formed root: no version directory uses a reserved link name or the
empty name, and directory names are unique. -/
def FS.wf (fs : FS) : Prop :=
  stableVersionLink ∉ fs.dirs ∧ experimentVersionLink ∉ fs.dirs ∧
    "" ∉ fs.dirs ∧ fs.dirs.Nodup

instance (fs : FS) : Decidable fs.wf := by
  unfold FS.wf; infer_instance

/-! Concrete fixtures used by witnesses and counterexamples. -/

/-- A hook-free environment in which every primitive succeeds. -/
def envA : Env := ⟨fun _ => none, "datadog-agent", true, fun _ => true⟩

/-- An environment whose hook for the root package vetoes every removal and
also reports an error. -/
def envB : Env :=
  ⟨fun n => if n = "datadog-agent" then some (fun _ => (false, true)) else none,
    "datadog-agent", true, fun _ => true⟩

/-- An environment whose hook allows every removal but reports an error. -/
def envC : Env :=
  ⟨fun n => if n = "datadog-agent" then some (fun _ => (true, true)) else none,
    "datadog-agent", true, fun _ => true⟩

/-- Same hook decisions as `envC` with no hook error. -/
def envD : Env :=
  ⟨fun n => if n = "datadog-agent" then some (fun _ => (true, false)) else none,
    "datadog-agent", true, fun _ => true⟩

/-- A source directory that is present and untouched. -/
def srcA : Src := ⟨true, false⟩

/-- Root with a single installed version and no pending experiment. -/
def fsA : FS := ⟨["v1"], some (.pkg "v1"), some (.pkg "v1")⟩

/-- Root with a stable version and a distinct experiment version. -/
def fsB : FS := ⟨["v1", "v2"], some (.pkg "v1"), some (.pkg "v2")⟩

/-- Legacy root: stable link only, no experiment link. -/
def fsHeal : FS := ⟨["v1"], some (.pkg "v1"), none⟩

/-- Root with an experiment link but no stable link. -/
def fsExpOnly : FS := ⟨["v2"], none, some (.pkg "v2")⟩

/-- Root with a garbage version directory besides the two referenced ones. -/
def fsGarbage : FS := ⟨["v1", "v2", "v3"], some (.pkg "v1"), some (.pkg "v2")⟩

/-! Basic facts about symlink resolution. -/

theorem resolveDest_zero (fs : FS) (c : Dest) : resolveDest fs 0 c = none := rfl

theorem resolveDest_succ_pkg (fs : FS) (f : Nat) (n : String) :
    resolveDest fs (f + 1) (.pkg n) = if n ∈ fs.dirs then some (.pkg n) else none := rfl

theorem resolveDest_succ_stable (fs : FS) (f : Nat) :
    resolveDest fs (f + 1) .stableLink =
      (match fs.stable with
       | none => none
       | some c => resolveDest fs f c) := rfl

theorem resolveDest_succ_exp (fs : FS) (f : Nat) :
    resolveDest fs (f + 1) .experimentLink =
      (match fs.experiment with
       | none => none
       | some c => resolveDest fs f c) := rfl

/-- A successful resolution always lands on an existing version directory. -/
theorem resolveDest_some (fs : FS) :
    ∀ (f : Nat) (c d : Dest), resolveDest fs f c = some d →
      ∃ n, d = Dest.pkg n ∧ n ∈ fs.dirs := by
  intro f
  induction f with
  | zero => intro c d h; rw [resolveDest_zero] at h; exact absurd h (by simp)
  | succ f ih =>
    intro c d h
    cases c with
    | pkg n =>
      rw [resolveDest_succ_pkg] at h
      by_cases hn : n ∈ fs.dirs
      · rw [if_pos hn] at h
        exact ⟨n, (Option.some.injEq _ _ ▸ h).symm, hn⟩
      · rw [if_neg hn] at h; exact absurd h (by simp)
    | stableLink =>
      rw [resolveDest_succ_stable] at h
      cases hcs : fs.stable with
      | none => rw [hcs] at h; exact absurd h (by simp)
      | some cc => rw [hcs] at h; exact ih cc d h
    | experimentLink =>
      rw [resolveDest_succ_exp] at h
      cases hcs : fs.experiment with
      | none => rw [hcs] at h; exact absurd h (by simp)
      | some cc => rw [hcs] at h; exact ih cc d h

/-- Resolution is monotone in the fuel. -/
theorem resolveDest_mono (fs : FS) :
    ∀ (f g : Nat) (c d : Dest), f ≤ g → resolveDest fs f c = some d →
      resolveDest fs g c = some d := by
  intro f
  induction f with
  | zero => intro g c d _ h; rw [resolveDest_zero] at h; exact absurd h (by simp)
  | succ f ih =>
    intro g c d hle h
    obtain ⟨g', rfl⟩ : ∃ g', g = g' + 1 := ⟨g - 1, by omega⟩
    have hle' : f ≤ g' := by omega
    cases c with
    | pkg n => rw [resolveDest_succ_pkg] at h ⊢; exact h
    | stableLink =>
      rw [resolveDest_succ_stable] at h ⊢
      cases hcs : fs.stable with
      | none => simp_all
      | some cc => rw [hcs] at h; exact ih g' cc d hle' h
    | experimentLink =>
      rw [resolveDest_succ_exp] at h ⊢
      cases hcs : fs.experiment with
      | none => simp_all
      | some cc => rw [hcs] at h; exact ih g' cc d hle' h

/-- A self-referential experiment link never resolves. -/
theorem resolveDest_expSelf (fs : FS) (hfs : fs.experiment = some Dest.experimentLink) :
    ∀ f, resolveDest fs f Dest.experimentLink = none := by
  intro f
  induction f with
  | zero => rfl
  | succ f ih => rw [resolveDest_succ_exp, hfs]; exact ih

/-- A direct link to an existing version directory resolves to it. -/
theorem resolveDest_fuel_pkg (fs : FS) (n : String) (hn : n ∈ fs.dirs) :
    resolveDest fs FUEL (.pkg n) = some (.pkg n) := by
  show resolveDest fs (254 + 1) (.pkg n) = some (.pkg n)
  rw [resolveDest_succ_pkg, if_pos hn]

/-- The stable link path resolves through a direct stable link. -/
theorem resolveDest_fuel_stableLink (fs : FS) (s : String)
    (hs : fs.stable = some (Dest.pkg s)) (hmem : s ∈ fs.dirs) :
    resolveDest fs FUEL Dest.stableLink = some (Dest.pkg s) := by
  have h2 : resolveDest fs 2 Dest.stableLink = some (Dest.pkg s) := by
    show resolveDest fs (1 + 1) Dest.stableLink = some (Dest.pkg s)
    rw [resolveDest_succ_stable, hs]
    show resolveDest fs (0 + 1) (Dest.pkg s) = some (Dest.pkg s)
    rw [resolveDest_succ_pkg, if_pos hmem]
  exact resolveDest_mono fs 2 FUEL _ _ (by norm_num [FUEL]) h2

/-- A link content that resolves to a version directory, while the stable
link resolves elsewhere, must be the direct link to that directory. -/
theorem resolve_content_pkg (fs : FS) (ce : Dest) (e : String)
    (hexp : fs.experiment = some ce)
    (h : resolveDest fs FUEL ce = some (Dest.pkg e))
    (hne : ∀ cs, fs.stable = some cs → resolveDest fs FUEL cs ≠ some (Dest.pkg e)) :
    ce = Dest.pkg e := by
  cases ce with
  | pkg m =>
    have hm : resolveDest fs FUEL (.pkg m) = if m ∈ fs.dirs then some (.pkg m) else none := by
      show resolveDest fs (254 + 1) (.pkg m) = _
      rw [resolveDest_succ_pkg]
    rw [hm] at h
    by_cases hmem : m ∈ fs.dirs
    · rw [if_pos hmem] at h
      have : m = e := by simpa using h
      rw [this]
    · rw [if_neg hmem] at h; exact absurd h (by simp)
  | stableLink =>
    exfalso
    have hu : resolveDest fs FUEL Dest.stableLink =
        (match fs.stable with
         | none => none
         | some c => resolveDest fs 254 c) := by
      show resolveDest fs (254 + 1) Dest.stableLink = _
      rw [resolveDest_succ_stable]
    rw [hu] at h
    cases hcs : fs.stable with
    | none => rw [hcs] at h; exact absurd h (by simp)
    | some cs =>
      rw [hcs] at h
      exact hne cs hcs (resolveDest_mono fs 254 FUEL _ _ (by norm_num [FUEL]) h)
  | experimentLink =>
    exfalso
    rw [resolveDest_expSelf fs hexp FUEL] at h
    exact absurd h (by simp)

/-! Facts about loading links and reading the repository. -/

theorem loadLink_none (fs : FS) : loadLink fs none = .ok none := rfl

theorem loadLink_ok_elim (fs : FS) (c o : Option Dest) (h : loadLink fs c = .ok o) :
    (c = none ∧ o = none) ∨
      ∃ cd n, c = some cd ∧ resolveDest fs FUEL cd = some (Dest.pkg n) ∧
        o = some (Dest.pkg n) := by
  cases c with
  | none =>
    left
    refine ⟨rfl, ?_⟩
    rw [loadLink_none] at h
    simpa using h.symm
  | some cd =>
    right
    have h' : (match resolveDest fs FUEL cd with
               | none => (Except.error RepoError.couldNotReadLink : Except RepoError (Option Dest))
               | some r => Except.ok (some r)) = Except.ok o := h
    cases hres : resolveDest fs FUEL cd with
    | none => simp_all
    | some d =>
      obtain ⟨n, hn, hmem⟩ := resolveDest_some fs FUEL cd d hres
      refine ⟨cd, n, rfl, ?_, ?_⟩
      · rw [← hn]; exact hres
      · rw [← hn]; simp_all

theorem readRepository_ok_elim (fs : FS) (r : RepoFiles) (h : readRepository fs = .ok r) :
    loadLink fs fs.stable = .ok r.stable ∧ loadLink fs fs.experiment = .ok r.experiment := by
  unfold readRepository at h
  cases h1 : loadLink fs fs.stable with
  | error e => rw [h1] at h; exact absurd h (by simp)
  | ok s =>
    rw [h1] at h
    cases h2 : loadLink fs fs.experiment with
    | error e => rw [h2] at h; exact absurd h (by simp)
    | ok e =>
      rw [h2] at h
      obtain rfl : r = ⟨s, e⟩ := by simpa using h.symm
      exact ⟨rfl, rfl⟩

theorem readRepository_ok_intro (fs : FS) (s e : Option Dest)
    (h1 : loadLink fs fs.stable = .ok s) (h2 : loadLink fs fs.experiment = .ok e) :
    readRepository fs = .ok ⟨s, e⟩ := by
  unfold readRepository
  rw [h1, h2]

/-- Shape of a successfully read repository: each loaded link resolved to an
existing version directory. -/
theorem repoFiles_shape (fs : FS) (r : RepoFiles) (h : readRepository fs = .ok r) :
    (r.stable = none ∨ ∃ n, r.stable = some (Dest.pkg n) ∧ n ∈ fs.dirs) ∧
      (r.experiment = none ∨ ∃ n, r.experiment = some (Dest.pkg n) ∧ n ∈ fs.dirs) := by
  obtain ⟨h1, h2⟩ := readRepository_ok_elim fs r h
  constructor
  · rcases loadLink_ok_elim fs fs.stable r.stable h1 with ⟨_, ho⟩ | ⟨cd, n, _, hres, ho⟩
    · exact Or.inl ho
    · obtain ⟨m, hm, hmem⟩ := resolveDest_some fs FUEL cd _ hres
      exact Or.inr ⟨n, ho, by
        have : Dest.pkg n = Dest.pkg m := by simpa using hm
        rw [show n = m from by simpa using this]; exact hmem⟩
  · rcases loadLink_ok_elim fs fs.experiment r.experiment h2 with ⟨_, ho⟩ | ⟨cd, n, _, hres, ho⟩
    · exact Or.inl ho
    · obtain ⟨m, hm, hmem⟩ := resolveDest_some fs FUEL cd _ hres
      exact Or.inr ⟨n, ho, by
        have : Dest.pkg n = Dest.pkg m := by simpa using hm
        rw [show n = m from by simpa using this]; exact hmem⟩

/-! Facts about the cleanup pass. -/

theorem selfHealR_stable (r : RepoFiles) : (selfHealR r).stable = r.stable := by
  unfold selfHealR setExperimentToStable
  split <;> rfl

theorem cleanupR_stable (r : RepoFiles) : (cleanupR r).stable = r.stable :=
  selfHealR_stable r

theorem selfHealR_of_heal (r : RepoFiles) (h : healCond r = true) :
    selfHealR r = ⟨r.stable, some Dest.stableLink⟩ := by
  unfold selfHealR setExperimentToStable
  rw [if_pos h]

theorem selfHealR_of_not_heal (r : RepoFiles) (h : healCond r = false) :
    selfHealR r = r := by
  unfold selfHealR
  rw [h]
  rfl

theorem healCond_of_expSome (r : RepoFiles) (h : r.experiment.isSome) :
    healCond r = false := by
  unfold healCond
  cases hre : r.experiment with
  | none => rw [hre] at h; exact absurd h (by simp)
  | some x => simp

theorem selfHealR_of_expSome (r : RepoFiles) (h : r.experiment.isSome) :
    selfHealR r = r :=
  selfHealR_of_not_heal r (healCond_of_expSome r h)

theorem cleanupR_experiment_isSome (r : RepoFiles) (h : r.stable.isSome) :
    (cleanupR r).experiment.isSome := by
  unfold cleanupR
  cases hre : r.experiment with
  | none =>
    have hc : healCond r = true := by
      unfold healCond
      rw [hre]
      simpa using h
    rw [selfHealR_of_heal r hc]
    rfl
  | some x =>
    rw [selfHealR_of_expSome r (by rw [hre]; rfl)]
    rw [hre]
    rfl

theorem cleanupFS_stable (env : Env) (r : RepoFiles) (fs : FS) :
    (cleanupFS env r fs).stable = fs.stable := by
  unfold cleanupFS selfHealFS setExperimentToStable
  dsimp only
  split <;> rfl

theorem cleanupFS_experiment (env : Env) (r : RepoFiles) (fs : FS) :
    (cleanupFS env r fs).experiment =
      if healCond r then some Dest.stableLink else fs.experiment := by
  unfold cleanupFS selfHealFS setExperimentToStable
  dsimp only
  split <;> simp_all

theorem cleanupFS_dirs (env : Env) (r : RepoFiles) (fs : FS) :
    (cleanupFS env r fs).dirs = fs.dirs.filter (keepEntry env (selfHealR r)) := by
  unfold cleanupFS selfHealFS setExperimentToStable
  dsimp only
  split <;> rfl

theorem mem_cleanupFS_dirs (env : Env) (r : RepoFiles) (fs : FS) (e : String) :
    e ∈ (cleanupFS env r fs).dirs ↔
      e ∈ fs.dirs ∧ keepEntry env (selfHealR r) e = true := by
  rw [cleanupFS_dirs]
  exact List.mem_filter

theorem cleanupFS_wf (env : Env) (r : RepoFiles) (fs : FS) (h : fs.wf) :
    (cleanupFS env r fs).wf := by
  obtain ⟨h1, h2, h3, h4⟩ := h
  refine ⟨?_, ?_, ?_, ?_⟩ <;>
    first
      | (intro hmem
         rw [mem_cleanupFS_dirs] at hmem
         simp_all)
      | (rw [cleanupFS_dirs]; exact h4.filter _)

/-- The well-formedness predicate only depends on the directory list. -/
theorem wf_of_dirs_eq (fs fs' : FS) (h : fs.dirs = fs'.dirs) (hwf : fs.wf) : fs'.wf := by
  unfold FS.wf at hwf ⊢
  rw [← h]
  exact hwf

theorem readRepositoryD_some (fs : FS) : readRepositoryD (some fs) = readRepository fs := rfl

/-! Facts about moving a package in from a source directory. -/

theorem movePackage_reserved (env : Env) (name : String) (fs : FS) (src : Src)
    (h : name = "" ∨ name = stableVersionLink ∨ name = experimentVersionLink) :
    movePackageFromSource env name fs src = ⟨some .invalidPackageName, none, fs, src⟩ := by
  unfold movePackageFromSource
  rw [if_pos h]

theorem movePackage_dup (env : Env) (name : String) (fs : FS) (src : Src)
    (h1 : ¬(name = "" ∨ name = stableVersionLink ∨ name = experimentVersionLink))
    (h2 : name ∈ fs.dirs) :
    movePackageFromSource env name fs src = ⟨some .targetPackageAlreadyExists, none, fs, src⟩ := by
  unfold movePackageFromSource
  rw [if_neg h1, if_pos h2]

theorem movePackage_err_cases (env : Env) (name : String) (fs : FS) (src : Src) :
    (movePackageFromSource env name fs src).err = none ∨
    (movePackageFromSource env name fs src).err = some .invalidPackageName ∨
    (movePackageFromSource env name fs src).err = some .targetPackageAlreadyExists ∨
    (movePackageFromSource env name fs src).err = some .permissionDenied ∨
    (movePackageFromSource env name fs src).err = some .couldNotMoveSource := by
  unfold movePackageFromSource
  split_ifs <;> simp

theorem movePackage_ok_elim (env : Env) (name : String) (fs : FS) (src : Src)
    (h : (movePackageFromSource env name fs src).err = none) :
    movePackageFromSource env name fs src =
      ⟨none, some (.pkg name), { fs with dirs := name :: fs.dirs }, ⟨false, true⟩⟩ := by
  unfold movePackageFromSource at h ⊢
  split_ifs at h ⊢ <;> simp_all

/-! Facts about `keepEntry` and the facade-level `Cleanup`. -/

theorem Cleanup_eq (env : Env) (fs : FS) (r : RepoFiles) (hr : readRepository fs = .ok r) :
    Cleanup env (some fs) = ⟨none, some (cleanupFS env r fs)⟩ := by
  unfold Cleanup
  dsimp only
  rw [hr]

theorem loaded_experiment_isSome (fs : FS) (r : RepoFiles)
    (hr : readRepository fs = .ok r) (h : fs.experiment.isSome) :
    r.experiment.isSome := by
  obtain ⟨_, h2⟩ := readRepository_ok_elim fs r hr
  cases hfe : fs.experiment with
  | none => rw [hfe] at h; exact absurd h (by simp)
  | some cd =>
    rw [hfe] at h2
    rcases loadLink_ok_elim fs (some cd) r.experiment h2 with ⟨hcd, _⟩ | ⟨_, n, _, _, ho⟩
    · exact absurd hcd (by simp)
    · rw [ho]; rfl

theorem keepEntry_of_stableTarget (env : Env) (r : RepoFiles) (e : String)
    (h1 : r.stable.isSome) (h2 : linkTarget r.stable = e) :
    keepEntry env (selfHealR r) e = true := by
  unfold keepEntry
  rw [selfHealR_stable, h2]
  simp [h1]

theorem keepEntry_of_expTarget (env : Env) (r : RepoFiles) (e : String)
    (h1 : r.experiment.isSome) (h2 : linkTarget r.experiment = e) :
    keepEntry env (selfHealR r) e = true := by
  unfold keepEntry
  rw [selfHealR_of_expSome r h1, h2]
  simp [h1]

/-- For an entry that is neither a link name nor a current link target, with
removal succeeding, survival is decided by the hook's boolean alone. -/
theorem keepEntry_unprotected (env : Env) (r : RepoFiles) (e : String)
    (h1 : e ≠ stableVersionLink) (h2 : e ≠ experimentVersionLink)
    (h3 : linkTarget r.stable ≠ e) (h4 : linkTarget r.experiment ≠ e)
    (hrm : env.removeOk e = true) :
    keepEntry env (selfHealR r) e =
      (match env.preRemoveHooks env.rootBase with
       | some hook => !(hook e).1
       | none => false) := by
  unfold keepEntry
  have hb1 : (e == stableVersionLink) = false := by simp [h1]
  have hb2 : (e == experimentVersionLink) = false := by simp [h2]
  have hb3 : (linkTarget (selfHealR r).stable == e) = false := by
    rw [selfHealR_stable]; simp [h3]
  have hb4 : (linkTarget (selfHealR r).experiment == e) = false := by
    by_cases hc : healCond r = true
    · rw [selfHealR_of_heal r hc]
      simp only [linkTarget, destBase]
      simp [Ne.symm h1]
    · have hc' : healCond r = false := by revert hc; cases healCond r <;> simp
      rw [selfHealR_of_not_heal r hc']
      simp [h4]
  rw [hb1, hb2, hb3, hb4, hrm]
  simp

/-!
## Claim theorems
-/

/-- C10: `movePackageFromSource` validates the package name and checks for an
existing target before touching the source directory, so a failure with
"invalid package name" or "target package already exists" leaves the source
directory in place and unmodified (and the repository untouched). -/
theorem movePackageFromSource_frame_c10 (env : Env) (name : String) (fs : FS) (src : Src)
    (h : (movePackageFromSource env name fs src).err = some RepoError.invalidPackageName ∨
         (movePackageFromSource env name fs src).err = some RepoError.targetPackageAlreadyExists) :
    (movePackageFromSource env name fs src).src = src ∧
      (movePackageFromSource env name fs src).fs = fs := by
  unfold movePackageFromSource at h ⊢
  split_ifs at h ⊢ <;> simp_all

/-- Witness for C10 at the reserved name "stable". -/
theorem movePackageFromSource_frame_c10_witness :
    (movePackageFromSource envA "stable" fsA srcA).src = srcA ∧
      (movePackageFromSource envA "stable" fsA srcA).fs = fsA :=
  movePackageFromSource_frame_c10 envA "stable" fsA srcA (Or.inl rfl)

/-- C9: when the experiment link exists (and resolves) but the stable link is
absent, `GetState` returns an empty `Stable` and the experiment link's
(non-empty) target: the collapse-to-empty rule fires only on equal targets. -/
theorem getState_experiment_only_c9 (fs : FS) (ce : Dest) (n : String)
    (hwf : fs.wf) (hs : fs.stable = none) (he : fs.experiment = some ce)
    (hres : resolveDest fs FUEL ce = some (Dest.pkg n)) :
    GetState (some fs) = .ok ⟨"", n⟩ ∧ n ≠ "" := by
  have hloadS : loadLink fs fs.stable = .ok none := by rw [hs]; rfl
  have hloadE : loadLink fs fs.experiment = .ok (some (Dest.pkg n)) := by
    rw [he]
    show (match resolveDest fs FUEL ce with
          | none => (Except.error RepoError.couldNotReadLink : Except RepoError (Option Dest))
          | some r => Except.ok (some r)) = Except.ok (some (Dest.pkg n))
    rw [hres]
  have hr : readRepository fs = .ok ⟨none, some (Dest.pkg n)⟩ :=
    readRepository_ok_intro fs none (some (Dest.pkg n)) hloadS hloadE
  obtain ⟨m, hm, hmem⟩ := resolveDest_some fs FUEL ce _ hres
  have hnm : n = m := by simpa [Dest.pkg.injEq] using hm
  have hnd : n ∈ fs.dirs := hnm ▸ hmem
  have hne : n ≠ "" := fun hEq => hwf.2.2.1 (hEq ▸ hnd)
  refine ⟨?_, hne⟩
  unfold GetState
  rw [readRepositoryD_some, hr]
  simp [linkTarget, destBase, hne]

/-- Witness for C9 at a concrete experiment-only root. -/
theorem getState_experiment_only_c9_witness :
    GetState (some fsExpOnly) = .ok ⟨"", "v2"⟩ ∧ "v2" ≠ "" :=
  getState_experiment_only_c9 fsExpOnly (.pkg "v2") "v2" (by decide) rfl rfl rfl

/-- C3: `GetState` reports the stable link's target, collapses the experiment
to the empty string exactly when the two targets coincide, and returns the
empty state with no error on a repository that was never created. -/
theorem getState_collapse_c3 :
    GetState none = .ok ⟨"", ""⟩ ∧
    ∀ fs r, readRepository fs = .ok r →
      ∃ s, GetState (some fs) = .ok s ∧
        s.Stable = linkTarget r.stable ∧
        (linkTarget r.experiment = linkTarget r.stable → s.Experiment = "") ∧
        (linkTarget r.experiment ≠ linkTarget r.stable → s.Experiment = linkTarget r.experiment) := by
  refine ⟨rfl, ?_⟩
  intro fs r hr
  refine ⟨⟨linkTarget r.stable,
    if linkTarget r.experiment = linkTarget r.stable then "" else linkTarget r.experiment⟩,
    ?_, rfl, ?_, ?_⟩
  · unfold GetState
    rw [readRepositoryD_some, hr]
  · intro h; rw [if_pos h]
  · intro h; rw [if_neg h]

/-- Witness for C3 at a concrete root with distinct targets. -/
theorem getState_collapse_c3_witness :
    ∃ s, GetState (some fsB) = .ok s ∧
      s.Stable = linkTarget (some (Dest.pkg "v1")) ∧
      (linkTarget (some (Dest.pkg "v2")) = linkTarget (some (Dest.pkg "v1")) → s.Experiment = "") ∧
      (linkTarget (some (Dest.pkg "v2")) ≠ linkTarget (some (Dest.pkg "v1")) →
        s.Experiment = linkTarget (some (Dest.pkg "v2"))) :=
  getState_collapse_c3.2 fsB ⟨some (.pkg "v1"), some (.pkg "v2")⟩ rfl

/-- C4: `setExperimentToStable` points the experiment link at the stable
link's path, so that re-reading the repository afterwards shows the
experiment link resolving to the stable link's current target; it is what
cleanup's self-heal step applies when the stable link exists and the
experiment link does not, and a successful `Create` or `DeleteExperiment`
leaves the on-disk experiment link pointing at the stable link. -/
theorem setExperimentToStable_c4 :
    (∀ (r : RepoFiles) (fs : FS) (s : String),
       fs.stable = some (Dest.pkg s) → s ∈ fs.dirs →
       ∃ r', readRepository (setExperimentToStable r fs).2 = .ok r' ∧
         r'.experiment = r'.stable ∧ linkTarget r'.experiment = linkTarget r'.stable ∧
         linkTarget r'.stable = s) ∧
    (∀ (env : Env) (r : RepoFiles) (fs : FS), healCond r = true →
       (cleanupFS env r fs).experiment = some Dest.stableLink) ∧
    (∀ (env : Env) (d : Disk) (name : String) (src : Src) (fs' : FS),
       (Create env d name src).err = none → (Create env d name src).disk = some fs' →
       fs'.experiment = some Dest.stableLink) ∧
    (∀ (env : Env) (d : Disk) (fs' : FS),
       (DeleteExperiment env d).err = none → (DeleteExperiment env d).disk = some fs' →
       fs'.experiment = some Dest.stableLink) := by
  refine ⟨?_, ?_, ?_, ?_⟩
  · intro r fs s hs hmem
    have hsE : (setExperimentToStable r fs).2.stable = some (Dest.pkg s) := hs
    have hmemE : s ∈ (setExperimentToStable r fs).2.dirs := hmem
    have h1 : loadLink (setExperimentToStable r fs).2 (setExperimentToStable r fs).2.stable =
        .ok (some (Dest.pkg s)) := by
      rw [hsE]
      show (match resolveDest (setExperimentToStable r fs).2 FUEL (Dest.pkg s) with
            | none => (Except.error RepoError.couldNotReadLink : Except RepoError (Option Dest))
            | some d => Except.ok (some d)) = Except.ok (some (Dest.pkg s))
      rw [resolveDest_fuel_pkg _ s hmemE]
    have h2 : loadLink (setExperimentToStable r fs).2 (setExperimentToStable r fs).2.experiment =
        .ok (some (Dest.pkg s)) := by
      show (match resolveDest (setExperimentToStable r fs).2 FUEL Dest.stableLink with
            | none => (Except.error RepoError.couldNotReadLink : Except RepoError (Option Dest))
            | some d => Except.ok (some d)) = Except.ok (some (Dest.pkg s))
      rw [resolveDest_fuel_stableLink _ s hsE hmemE]
    exact ⟨⟨some (.pkg s), some (.pkg s)⟩,
      readRepository_ok_intro _ _ _ h1 h2, rfl, rfl, rfl⟩
  · intro env r fs hc
    rw [cleanupFS_experiment, if_pos hc]
  · intro env d name src fs' herr hdisk
    simp only [Create] at herr hdisk
    cases hread : readRepository (d.getD ⟨[], none, none⟩) with
    | error e => rw [hread] at herr; simp at herr
    | ok r₀ =>
      rw [hread] at herr hdisk
      rcases hmv : movePackageFromSource env name
          (cleanupFS env ⟨none, none⟩
            { d.getD ⟨[], none, none⟩ with stable := none, experiment := none }) src with
        ⟨merr, mpath, mfs, msrc⟩
      rw [hmv] at herr hdisk
      cases merr with
      | some e => simp at herr
      | none =>
        cases mpath with
        | none => simp at herr
        | some p =>
          have : fs' = (setExperimentToStable ⟨some p, none⟩ { mfs with stable := some p }).2 := by
            simpa using hdisk.symm
          rw [this]
          rfl
  · intro env d fs' herr hdisk
    cases d with
    | none => simp [DeleteExperiment] at herr
    | some fs =>
      simp only [DeleteExperiment] at herr hdisk
      cases hread : readRepository fs with
      | error e => rw [hread] at herr; simp at herr
      | ok r =>
        rw [hread] at herr hdisk
        dsimp only at herr hdisk
        by_cases h1 : (cleanupR r).stable = none
        · rw [if_pos h1] at herr; simp at herr
        · rw [if_neg h1] at herr hdisk
          by_cases h2 : (cleanupR r).experiment = none
          · rw [if_pos h2] at herr; simp at herr
          · rw [if_neg h2] at herr hdisk
            have hfs' : fs' = cleanupFS env
                (setExperimentToStable (cleanupR r) (cleanupFS env r fs)).1
                (setExperimentToStable (cleanupR r) (cleanupFS env r fs)).2 := by
              simpa using hdisk.symm
            rw [hfs', cleanupFS_experiment,
              healCond_of_expSome _ (by rfl)]
            rfl

/-- C1: a cleanup pass never removes the `stable` or `experiment` link
entries nor a directory whose name equals a current link target; assuming the
removal primitive succeeds, every other directory under the root is removed
exactly unless the pre-remove hook registered under the root's base name
returns `canDelete = false` for it. -/
theorem cleanup_garbage_c1 (env : Env) (fs : FS) (r : RepoFiles)
    (hwf : fs.wf) (hr : readRepository fs = .ok r)
    (hrm : ∀ e, env.removeOk e = true) :
    (Cleanup env (some fs)).err = none ∧
    ∃ fs', (Cleanup env (some fs)).disk = some fs' ∧
      fs'.stable = fs.stable ∧
      (fs.experiment.isSome → fs'.experiment = fs.experiment) ∧
      (∀ e ∈ fs.dirs, (e = linkTarget r.stable ∨ e = linkTarget r.experiment) → e ∈ fs'.dirs) ∧
      (∀ e ∈ fs.dirs, e ≠ linkTarget r.stable → e ≠ linkTarget r.experiment →
        (e ∈ fs'.dirs ↔
          ∃ hook, env.preRemoveHooks env.rootBase = some hook ∧ (hook e).1 = false)) := by
  rw [Cleanup_eq env fs r hr]
  refine ⟨rfl, cleanupFS env r fs, rfl, cleanupFS_stable env r fs, ?_, ?_, ?_⟩
  · intro hsome
    rw [cleanupFS_experiment,
      if_neg (by rw [healCond_of_expSome r (loaded_experiment_isSome fs r hr hsome)]; simp)]
  · intro e hmem hor
    rw [mem_cleanupFS_dirs]
    refine ⟨hmem, ?_⟩
    rcases hor with he | he
    · rcases (repoFiles_shape fs r hr).1 with hnone | ⟨n, hsn, _⟩
      · rw [hnone, show linkTarget none = "" from rfl] at he
        exact absurd (he ▸ hmem) hwf.2.2.1
      · exact keepEntry_of_stableTarget env r e (by rw [hsn]; rfl) he.symm
    · rcases (repoFiles_shape fs r hr).2 with hnone | ⟨n, hsn, _⟩
      · rw [hnone, show linkTarget none = "" from rfl] at he
        exact absurd (he ▸ hmem) hwf.2.2.1
      · exact keepEntry_of_expTarget env r e (by rw [hsn]; rfl) he.symm
  · intro e hmem hne1 hne2
    rw [mem_cleanupFS_dirs]
    have h1 : e ≠ stableVersionLink := fun hEq => hwf.1 (hEq ▸ hmem)
    have h2 : e ≠ experimentVersionLink := fun hEq => hwf.2.1 (hEq ▸ hmem)
    rw [keepEntry_unprotected env r e h1 h2 (Ne.symm hne1) (Ne.symm hne2) (hrm e)]
    cases hh : env.preRemoveHooks env.rootBase with
    | none => simp [hmem]
    | some hook => simp [hmem, Bool.not_eq_true']

/-- Witness for C1: with a vetoing hook, the unreferenced directory survives
the sweep exactly because of the hook's veto. -/
theorem cleanup_garbage_c1_witness :
    (Cleanup envB (some fsGarbage)).err = none ∧
    ∃ fs', (Cleanup envB (some fsGarbage)).disk = some fs' ∧
      ("v3" ∈ fs'.dirs ↔
        ∃ hook, envB.preRemoveHooks envB.rootBase = some hook ∧ (hook "v3").1 = false) := by
  obtain ⟨h1, fs', h2, _, _, _, h6⟩ :=
    cleanup_garbage_c1 envB fsGarbage ⟨some (.pkg "v1"), some (.pkg "v2")⟩
      (by decide) rfl (fun _ => rfl)
  exact ⟨h1, fs', h2, h6 "v3" (by decide) (by decide) (by decide)⟩

/-- C8: the garbage sweep is best-effort and hook-boolean-driven: cleanup
never returns an error on a readable root, its outcome is unchanged if the
hook's error component changes (only the boolean and the removal oracle
matter), and each entry's survival is decided pointwise by `keepEntry`. -/
theorem cleanup_besteffort_c8 (env env' : Env) (fs : FS) (r : RepoFiles)
    (hr : readRepository fs = .ok r)
    (hhook : ∀ e, Option.map (fun hook => (hook e).1) (env.preRemoveHooks env.rootBase)
           = Option.map (fun hook => (hook e).1) (env'.preRemoveHooks env'.rootBase))
    (hrm : env.removeOk = env'.removeOk) :
    (Cleanup env (some fs)).err = none ∧
    Cleanup env (some fs) = Cleanup env' (some fs) ∧
    ∀ e ∈ fs.dirs, ∀ fs', (Cleanup env (some fs)).disk = some fs' →
      (e ∈ fs'.dirs ↔ keepEntry env (selfHealR r) e = true) := by
  have hk : ∀ e, keepEntry env (selfHealR r) e = keepEntry env' (selfHealR r) e := by
    intro e
    have hmap := hhook e
    unfold keepEntry
    rw [hrm]
    cases hh : env.preRemoveHooks env.rootBase with
    | none =>
      cases hh' : env'.preRemoveHooks env'.rootBase with
      | none => rfl
      | some hook' => rw [hh, hh'] at hmap; exact absurd hmap (by simp)
    | some hook =>
      cases hh' : env'.preRemoveHooks env'.rootBase with
      | none => rw [hh, hh'] at hmap; exact absurd hmap (by simp)
      | some hook' =>
        rw [hh, hh'] at hmap
        have heq : (hook e).1 = (hook' e).1 := by simpa using hmap
        dsimp only
        rw [heq]
  have hfs : cleanupFS env r fs = cleanupFS env' r fs := by
    unfold cleanupFS
    dsimp only
    rw [List.filter_congr (fun e _ => hk e)]
  refine ⟨?_, ?_, ?_⟩
  · rw [Cleanup_eq env fs r hr]
  · rw [Cleanup_eq env fs r hr, Cleanup_eq env' fs r hr, hfs]
  · intro e hmem fs' hdisk
    rw [Cleanup_eq env fs r hr] at hdisk
    obtain rfl : fs' = cleanupFS env r fs := by simpa using hdisk.symm
    rw [mem_cleanupFS_dirs]
    simp [hmem]

/-- Witness for C8: two environments whose hooks decide identically but
report different errors produce identical cleanups. -/
theorem cleanup_besteffort_c8_witness :
    (Cleanup envC (some fsGarbage)).err = none ∧
    Cleanup envC (some fsGarbage) = Cleanup envD (some fsGarbage) := by
  obtain ⟨h1, h2, _⟩ :=
    cleanup_besteffort_c8 envC envD fsGarbage ⟨some (.pkg "v1"), some (.pkg "v2")⟩
      rfl (fun _ => rfl) rfl
  exact ⟨h1, h2⟩

/-- Witness for C4's postcondition on the legacy stable-only root. -/
theorem setExperimentToStable_c4_witness :
    ∃ r', readRepository (setExperimentToStable ⟨some (Dest.pkg "v1"), none⟩ fsHeal).2 = .ok r' ∧
      r'.experiment = r'.stable ∧ linkTarget r'.experiment = linkTarget r'.stable ∧
      linkTarget r'.stable = "v1" :=
  setExperimentToStable_c4.1 ⟨some (Dest.pkg "v1"), none⟩ fsHeal "v1" rfl (by decide)

/-- C7: `Delete` removes both links and runs a full cleanup; when entries
survive the cleanup it fails with the explicit not-empty error and leaves the
root directory (with the survivors) in place; it removes the root directory
exactly when the root is empty after cleanup. -/
theorem delete_requires_empty_c7 (env : Env) (fs : FS) (r : RepoFiles)
    (hr : readRepository fs = .ok r) :
    ((cleanupFS env ⟨none, none⟩ { fs with stable := none, experiment := none }).dirs = [] →
      Delete env (some fs) = ⟨none, none⟩) ∧
    ((cleanupFS env ⟨none, none⟩ { fs with stable := none, experiment := none }).dirs ≠ [] →
      Delete env (some fs) =
        ⟨some .rootNotEmptyAfterCleanup,
         some (cleanupFS env ⟨none, none⟩ { fs with stable := none, experiment := none })⟩) := by
  have hD : Delete env (some fs) =
      (if (cleanupFS env ⟨none, none⟩
            { fs with stable := none, experiment := none }).dirs.isEmpty
       then (⟨none, none⟩ : OpRes)
       else ⟨some .rootNotEmptyAfterCleanup,
             some (cleanupFS env ⟨none, none⟩
               { fs with stable := none, experiment := none })⟩) := by
    unfold Delete
    dsimp only
    rw [hr]
  constructor
  · intro h
    rw [hD, if_pos (by simp [h])]
  · intro h
    rw [hD, if_neg (by simp [h])]

/-- Witness for C7: with an always-vetoing hook both version directories
survive and `Delete` fails with the not-empty error, leaving the root. -/
theorem delete_requires_empty_c7_witness :
    Delete envB (some fsB) =
      ⟨some .rootNotEmptyAfterCleanup,
       some (cleanupFS envB ⟨none, none⟩ { fsB with stable := none, experiment := none })⟩ :=
  (delete_requires_empty_c7 envB fsB ⟨some (.pkg "v1"), some (.pkg "v2")⟩ rfl).2 (by decide)

/-- C6 counterexample: on a root with only a stable link (no experiment
link), `SetExperiment` does not return an invalid-state error — the claim's
"whenever the stable and experiment links do not both exist" is refuted. -/
theorem setExperiment_c6_counterexample :
    fsHeal.stable.isSome ∧ fsHeal.experiment = none ∧
    (SetExperiment envA (some fsHeal) "v2" srcA).err = none :=
  ⟨rfl, rfl, rfl⟩

/-- C6 (amended): `SetExperiment` returns the invalid-state error exactly
when the stable link is missing; when the stable link exists, cleanup's
self-heal step first creates the experiment link pointing at the stable
link's path (hence at its target) and no invalid-state error is returned. -/
theorem setExperiment_invalid_state_c6 (env : Env) (fs : FS) (name : String) (src : Src)
    (r : RepoFiles) (hr : readRepository fs = .ok r) :
    (r.stable = none →
      SetExperiment env (some fs) name src =
        ⟨some .stableLinkMissing, some (cleanupFS env r fs), src⟩) ∧
    (r.stable.isSome →
      (SetExperiment env (some fs) name src).err ≠ some .stableLinkMissing ∧
      (SetExperiment env (some fs) name src).err ≠ some .experimentLinkMissing) ∧
    (r.stable.isSome → r.experiment = none →
      (cleanupFS env r fs).experiment = some Dest.stableLink) := by
  refine ⟨?_, ?_, ?_⟩
  · intro h0
    unfold SetExperiment
    dsimp only
    rw [hr]
    dsimp only
    rw [if_pos (by rw [cleanupR_stable]; exact h0)]
  · intro hs
    unfold SetExperiment
    dsimp only
    rw [hr]
    dsimp only
    rw [if_neg (by rw [cleanupR_stable]; exact Option.isSome_iff_ne_none.mp hs)]
    rw [if_neg (Option.isSome_iff_ne_none.mp (cleanupR_experiment_isSome r hs))]
    have hcases := movePackage_err_cases env name (cleanupFS env r fs) src
    rcases hmv : movePackageFromSource env name (cleanupFS env r fs) src with
      ⟨merr, mpath, mfs, msrc⟩
    rw [hmv] at hcases
    dsimp only at hcases
    cases merr with
    | some e => rcases hcases with h | h | h | h | h <;> simp_all
    | none =>
      cases mpath with
      | none => exact ⟨by simp, by simp⟩
      | some p => exact ⟨by simp, by simp⟩
  · intro hs he0
    rw [cleanupFS_experiment, if_pos (by unfold healCond; rw [he0]; simpa using hs)]

/-- Witness for C6 (amended) at a root missing the stable link. -/
theorem setExperiment_invalid_state_c6_witness :
    SetExperiment envA (some fsExpOnly) "v3" srcA =
      ⟨some .stableLinkMissing,
       some (cleanupFS envA ⟨none, some (Dest.pkg "v2")⟩ fsExpOnly), srcA⟩ :=
  (setExperiment_invalid_state_c6 envA fsExpOnly "v3" srcA
    ⟨none, some (Dest.pkg "v2")⟩ rfl).1 rfl

/-- C5 counterexample: `Create` with the reserved name "stable" fails with
the invalid-name error but has already mutated the repository (both links
deleted and the old version garbage-collected), and `Create` with a version
name that already exists under the root succeeds, because the unreferenced
duplicate is garbage-collected before the move. -/
theorem create_c5_counterexample :
    (Create envA (some fsA) "stable" srcA).err = some RepoError.invalidPackageName ∧
    (Create envA (some fsA) "stable" srcA).disk ≠ some fsA ∧
    "v1" ∈ fsA.dirs ∧ (Create envA (some fsA) "v1" srcA).err = none := by
  refine ⟨rfl, by decide, by decide, rfl⟩

/-- C5 (amended): with an empty or reserved version identifier, `Create` and
`SetExperiment` fail with the invalid-name error and leave the source
directory untouched; with a version name that still exists under the root at
move time (i.e. that survived the preceding cleanup) they fail with the
duplicate-target error, likewise leaving the source untouched. -/
theorem create_setExperiment_invalid_input_c5 :
    (∀ (env : Env) (d : Disk) (name : String) (src : Src) (r₀ : RepoFiles),
      readRepository (d.getD ⟨[], none, none⟩) = .ok r₀ →
      (name = "" ∨ name = stableVersionLink ∨ name = experimentVersionLink) →
      (Create env d name src).err = some RepoError.invalidPackageName ∧
        (Create env d name src).src = src) ∧
    (∀ (env : Env) (d : Disk) (name : String) (src : Src) (r₀ : RepoFiles),
      readRepository (d.getD ⟨[], none, none⟩) = .ok r₀ →
      ¬(name = "" ∨ name = stableVersionLink ∨ name = experimentVersionLink) →
      name ∈ (cleanupFS env ⟨none, none⟩
        { d.getD ⟨[], none, none⟩ with stable := none, experiment := none }).dirs →
      (Create env d name src).err = some RepoError.targetPackageAlreadyExists ∧
        (Create env d name src).src = src) ∧
    (∀ (env : Env) (fs : FS) (name : String) (src : Src) (r : RepoFiles),
      readRepository fs = .ok r → r.stable.isSome →
      (name = "" ∨ name = stableVersionLink ∨ name = experimentVersionLink) →
      (SetExperiment env (some fs) name src).err = some RepoError.invalidPackageName ∧
        (SetExperiment env (some fs) name src).src = src) ∧
    (∀ (env : Env) (fs : FS) (name : String) (src : Src) (r : RepoFiles),
      readRepository fs = .ok r → r.stable.isSome →
      ¬(name = "" ∨ name = stableVersionLink ∨ name = experimentVersionLink) →
      name ∈ (cleanupFS env r fs).dirs →
      (SetExperiment env (some fs) name src).err = some RepoError.targetPackageAlreadyExists ∧
        (SetExperiment env (some fs) name src).src = src) := by
  refine ⟨?_, ?_, ?_, ?_⟩
  · intro env d name src r₀ hread hres
    unfold Create
    dsimp only
    rw [hread]
    dsimp only
    rw [movePackage_reserved env name _ src hres]
    exact ⟨rfl, rfl⟩
  · intro env d name src r₀ hread hres hdup
    unfold Create
    dsimp only
    rw [hread]
    dsimp only
    rw [movePackage_dup env name _ src hres hdup]
    exact ⟨rfl, rfl⟩
  · intro env fs name src r hr hs hres
    unfold SetExperiment
    dsimp only
    rw [hr]
    dsimp only
    rw [if_neg (by rw [cleanupR_stable]; exact Option.isSome_iff_ne_none.mp hs)]
    rw [if_neg (Option.isSome_iff_ne_none.mp (cleanupR_experiment_isSome r hs))]
    rw [movePackage_reserved env name _ src hres]
    exact ⟨rfl, rfl⟩
  · intro env fs name src r hr hs hres hdup
    unfold SetExperiment
    dsimp only
    rw [hr]
    dsimp only
    rw [if_neg (by rw [cleanupR_stable]; exact Option.isSome_iff_ne_none.mp hs)]
    rw [if_neg (Option.isSome_iff_ne_none.mp (cleanupR_experiment_isSome r hs))]
    rw [movePackage_dup env name _ src hres hdup]
    exact ⟨rfl, rfl⟩

/-- Witness for C5 (amended) at concrete reserved and duplicate inputs. -/
theorem create_setExperiment_invalid_input_c5_witness :
    ((Create envA (some fsA) "experiment" srcA).err = some RepoError.invalidPackageName ∧
      (Create envA (some fsA) "experiment" srcA).src = srcA) ∧
    ((Create envB (some fsA) "v1" srcA).err = some RepoError.targetPackageAlreadyExists ∧
      (Create envB (some fsA) "v1" srcA).src = srcA) ∧
    ((SetExperiment envB (some fsB) "v2" srcA).err = some RepoError.targetPackageAlreadyExists ∧
      (SetExperiment envB (some fsB) "v2" srcA).src = srcA) := by
  refine ⟨?_, ?_, ?_⟩
  · exact create_setExperiment_invalid_input_c5.1 envA (some fsA) "experiment" srcA
      ⟨some (.pkg "v1"), some (.pkg "v1")⟩ rfl (Or.inr (Or.inr rfl))
  · exact create_setExperiment_invalid_input_c5.2.1 envB (some fsA) "v1" srcA
      ⟨some (.pkg "v1"), some (.pkg "v1")⟩ rfl (by decide) (by decide)
  · exact create_setExperiment_invalid_input_c5.2.2.2 envB fsB "v2" srcA
      ⟨some (.pkg "v1"), some (.pkg "v2")⟩ rfl rfl (by decide) (by decide)

/-- C2: on a legacy root holding only a stable link, the first
`PromoteExperiment` call succeeds after the self-heal step — pointing the
stable link at its own path and garbage-collecting every version directory —
and the second call fails with the link-corruption error rather than
"no experiment to promote": promotion can corrupt the repository state. -/
theorem promote_twice_c2_bug :
    (PromoteExperiment envA (some fsHeal)).err = none ∧
    (PromoteExperiment envA (some fsHeal)).disk =
      some ⟨[], some Dest.stableLink, some Dest.stableLink⟩ ∧
    (PromoteExperiment envA (some ⟨[], some Dest.stableLink, some Dest.stableLink⟩)).err =
      some RepoError.couldNotReadLink ∧
    (PromoteExperiment envA (some ⟨[], some Dest.stableLink, some Dest.stableLink⟩)).err ≠
      some RepoError.noExperimentToPromote :=
  ⟨rfl, rfl, rfl, by decide⟩

end PkgRepo
